import Mathlib

/-!
Shallow embedding of the `MusicPlayer` playback engine of `src/main.py`
(class `MusicPlayer`, lines 113-309) together with its polling tick.

The audio device (pygame.mixer.music) and the wall clock are modelled as
oracle inputs supplied per operation:
  * `getPos : Option Int` — the result of `pygame.mixer.music.get_pos()`
    in milliseconds; `none` models the call raising an exception.
  * `busy : Bool` — the result of `pygame.mixer.music.get_busy()`.
  * `ok : Bool` — whether the device `load`/`play` calls inside a
    `try` block succeed (`false` models an exception caught by the
    surrounding handler).
  * `now : ℚ` — the value of `time.time()` during the operation.
File existence (`os.path.isfile`) and durations (`get_duration`, which
returns `0.0` on failure) are an environment record.
All real-valued quantities are modelled as rationals.
-/

namespace Velzaren

/-- Environment: file existence (`is_file`) and `get_duration`. -/
structure Env where
  is_file : String → Bool
  duration : String → ℚ

/-- Signals emitted by the engine (`state_changed`, `track_changed`,
`position_updated`), recorded in emission order. -/
inductive Event where
  | state_changed : Event
  | track_changed : String → Event
  | position_updated : ℚ → ℚ → Event
deriving DecidableEq, Repr

/-- The mutable fields of `MusicPlayer` relevant to the playback engine. -/
structure PlayerState where
  playlist : List String
  current_index : Int
  playing : Bool
  volume : ℚ
  track_start_time : Option ℚ
  track_offset_seconds : ℚ
deriving DecidableEq, Repr

/-- The state installed by `MusicPlayer.__init__` (lines 118-141). -/
def initState : PlayerState :=
  { playlist := [], current_index := -1, playing := false,
    volume := 85/100, track_start_time := none, track_offset_seconds := 0 }

/-- Python truthiness fallback `x or d` on an optional float
(`self._track_start_time or time.time()`, line 242): `None` and `0.0`
are falsy. -/
def pyOrTime (o : Option ℚ) (d : ℚ) : ℚ :=
  match o with
  | none => d
  | some t => if t = 0 then d else t

/-- Python list indexing `l[i]`: non-negative indices from the front,
negative indices wrap from the back, out of range raises (`none`). -/
def pyIndex (l : List String) (i : Int) : Option String :=
  if 0 ≤ i then l.get? i.toNat
  else if -(l.length : Int) ≤ i then l.get? (i + l.length).toNat
  else none

/-- Model of `MusicPlayer._play_internal` (lines 193-211).  All state mutation sits
inside the `try` after the device `load`/`play` calls, so on a device
failure (`ok = false`) the state is untouched and no signal fires. -/
def play_internal (s : PlayerState) (path : String) (start_time : ℚ)
    (ok : Bool) (now : ℚ) : PlayerState × List Event :=
  if ok then
    ({ s with track_offset_seconds := start_time,
              track_start_time := some now,
              playing := true },
     [Event.track_changed path, Event.state_changed])
  else (s, [])

/-- Model of `MusicPlayer.play_index` (lines 213-219). -/
def play_index (env : Env) (s : PlayerState) (idx : Int)
    (ok : Bool) (now : ℚ) : PlayerState × List Event :=
  if s.playlist = [] then (s, [])
  else if idx < 0 ∨ (s.playlist.length : Int) ≤ idx then (s, [])
  else
    let path := s.playlist.getD idx.toNat ""
    if env.is_file path then
      play_internal { s with current_index := idx } path 0 ok now
    else (s, [])

/-- Model of `MusicPlayer.play_path` (lines 221-227); `list.index` is the first
index of the path in the playlist. -/
def play_path (env : Env) (s : PlayerState) (path : String)
    (ok : Bool) (now : ℚ) : PlayerState × List Event :=
  if env.is_file path then
    if path ∈ s.playlist then
      play_index env s (s.playlist.indexOf path : Nat) ok now
    else
      play_internal { s with current_index := -1 } path 0 ok now
  else (s, [])

/-- Model of `MusicPlayer.toggle` (lines 229-256).  While playing: the device
`pause()` failure is swallowed; the offset accumulates `get_pos`
milliseconds when non-negative, otherwise wall-clock elapsed (a `None`
start time raises and lands in the `except` branch, line 242).  While
paused: a successful `unpause()` resumes at the current offset; on
failure the engine falls back to a fresh `play_index(0)` or a reload at
the accumulated offset. -/
def toggle (env : Env) (s : PlayerState) (getPos : Option Int)
    (unpauseOk : Bool) (ok : Bool) (now : ℚ) : PlayerState × List Event :=
  if s.playing then
    let delta : ℚ :=
      match getPos with
      | some ms =>
        if 0 ≤ ms then (ms : ℚ) / 1000
        else
          match s.track_start_time with
          | some t => now - t
          | none => now - pyOrTime none now
      | none => now - pyOrTime s.track_start_time now
    ({ s with track_offset_seconds := s.track_offset_seconds + delta,
              playing := false },
     [Event.state_changed])
  else
    if unpauseOk then
      ({ s with playing := true, track_start_time := some now },
       [Event.state_changed])
    else
      if s.playlist = [] then (s, [])
      else if s.current_index = -1 then play_index env s 0 ok now
      else
        match pyIndex s.playlist s.current_index with
        | some path => play_internal s path s.track_offset_seconds ok now
        | none => (s, [])

/-- Model of `MusicPlayer.stop` (lines 258-266). -/
def stop (s : PlayerState) : PlayerState × List Event :=
  ({ s with playing := false, track_start_time := none,
            track_offset_seconds := 0 },
   [Event.state_changed])

/-- Model of `MusicPlayer.next` (lines 268-271): advance with wraparound, then
`play_index` at the new index. -/
def next (env : Env) (s : PlayerState) (ok : Bool) (now : ℚ) :
    PlayerState × List Event :=
  if s.playlist = [] then (s, [])
  else
    let i : Int :=
      if s.current_index = -1 then 0
      else (s.current_index + 1) % (s.playlist.length : Int)
    play_index env { s with current_index := i } i ok now

/-- Model of `MusicPlayer.prev` (lines 273-276). -/
def prev (env : Env) (s : PlayerState) (ok : Bool) (now : ℚ) :
    PlayerState × List Event :=
  if s.playlist = [] then (s, [])
  else
    let i : Int :=
      if s.current_index = -1 then 0
      else (s.current_index - 1 + s.playlist.length) % (s.playlist.length : Int)
    play_index env { s with current_index := i } i ok now

/-- Model of `MusicPlayer.set_volume` (lines 278-284). -/
def set_volume (s : PlayerState) (vol : ℚ) : PlayerState × List Event :=
  ({ s with volume := max 0 (min 1 vol) }, [Event.state_changed])

/-- Model of `MusicPlayer.seek` (lines 286-309).  Out-of-range or unset index, or
a missing file, returns untouched; `seconds` is clamped by
`max(0.0, min(seconds, total if total > 0 else seconds))`; state
mutation sits inside the `try` after the device calls. -/
def seek (env : Env) (s : PlayerState) (seconds : ℚ)
    (ok : Bool) (now : ℚ) : PlayerState × List Event :=
  if s.current_index = -1 ∨
      ¬(0 ≤ s.current_index ∧ s.current_index < (s.playlist.length : Int)) then
    (s, [])
  else
    let path := s.playlist.getD s.current_index.toNat ""
    if env.is_file path then
      let total := env.duration path
      let sec := max 0 (min seconds (if 0 < total then total else seconds))
      if ok then
        ({ s with track_offset_seconds := sec,
                  track_start_time := some now,
                  playing := true },
         [Event.track_changed path, Event.state_changed])
      else (s, [])
    else (s, [])

/-- Model of `MusicPlayer.load_playlist` (lines 182-184). -/
def load_playlist (env : Env) (s : PlayerState) (paths : List String) :
    PlayerState × List Event :=
  let pl := paths.filter env.is_file
  ({ s with playlist := pl, current_index := if pl = [] then -1 else 0 }, [])

/-- Model of `MusicPlayer.current_track` (lines 186-191). -/
def current_track (s : PlayerState) : Option String :=
  if s.current_index = -1 then none
  else if 0 ≤ s.current_index ∧ s.current_index < (s.playlist.length : Int) then
    some (s.playlist.getD s.current_index.toNat "")
  else none

/-- The `cur` value computed by `MusicPlayer._tick` (lines 144-160):
frozen offset unless playing with a set start time; otherwise offset
plus `get_pos` milliseconds when non-negative, else offset plus
wall-clock elapsed since the start time (also on a `get_pos`
exception). -/
def tickCur (s : PlayerState) (getPos : Option Int) (now : ℚ) : ℚ :=
  if s.playing then
    match s.track_start_time with
    | none => s.track_offset_seconds
    | some t =>
      match getPos with
      | some ms =>
        if 0 ≤ ms then s.track_offset_seconds + (ms : ℚ) / 1000
        else s.track_offset_seconds + (now - t)
      | none => s.track_offset_seconds + (now - t)
  else s.track_offset_seconds

/-- The `total` value computed by `MusicPlayer._tick` (lines 144-149). -/
def tickTotal (env : Env) (s : PlayerState) : ℚ :=
  if s.current_index ≠ -1 ∧
      0 ≤ s.current_index ∧ s.current_index < (s.playlist.length : Int) then
    env.duration (s.playlist.getD s.current_index.toNat "")
  else 0

/-- Oracle inputs consumed by one `_tick`. -/
structure TickOracle where
  getPos : Option Int
  busy : Bool
  ok : Bool
  now : ℚ

/-- Model of `MusicPlayer._tick` (lines 143-180): emit `position_updated`, then
auto-advance when playing and the device is no longer busy, pausing and
emitting `state_changed` before `next()`. -/
def tick (env : Env) (s : PlayerState) (o : TickOracle) :
    PlayerState × List Event :=
  let total := tickTotal env s
  let cur := tickCur s o.getPos o.now
  let base := [Event.position_updated cur total]
  if s.playing ∧ o.busy = false then
    if 1 < total ∧ total - 7/10 ≤ cur then
      let r := next env { s with playing := false } o.ok o.now
      (r.1, base ++ [Event.state_changed] ++ r.2)
    else if total ≤ 1 then
      let r := next env { s with playing := false } o.ok o.now
      (r.1, base ++ [Event.state_changed] ++ r.2)
    else (s, base)
  else (s, base)

/-- The index invariant: `current_index` is `-1` or a valid position. -/
def indexInv (s : PlayerState) : Prop :=
  s.current_index = -1 ∨
    (0 ≤ s.current_index ∧ s.current_index < (s.playlist.length : Int))

instance (s : PlayerState) : Decidable (indexInv s) := by
  unfold indexInv; infer_instance

/-- A fixed environment where every path exists and has duration 100. -/
def exEnv : Env := { is_file := fun _ => true, duration := fun _ => 100 }

/-- A fixed environment where every path exists and has duration 200. -/
def exEnv200 : Env := { is_file := fun _ => true, duration := fun _ => 200 }

/-! ### Helper lemmas -/

theorem play_index_keeps_index (env : Env) (s : PlayerState) (idx : Int)
    (ok : Bool) (now : ℚ) (h : s.current_index = idx) :
    (play_index env s idx ok now).1.current_index = idx ∧
    (play_index env s idx ok now).1.playlist = s.playlist := by
  cases ok <;> simp [play_index, play_internal] <;> split_ifs <;> simp_all

theorem play_index_success (env : Env) (s : PlayerState) (idx : Int)
    (now : ℚ) (hne : s.playlist ≠ [])
    (h0 : 0 ≤ idx) (h1 : idx < (s.playlist.length : Int))
    (hf : env.is_file (s.playlist.getD idx.toNat "") = true) :
    play_index env s idx true now =
      ({ s with current_index := idx, track_offset_seconds := 0,
                track_start_time := some now, playing := true },
       [Event.track_changed (s.playlist.getD idx.toNat ""),
        Event.state_changed]) := by
  have hrange : ¬(idx < 0 ∨ (s.playlist.length : Int) ≤ idx) := by omega
  have hf2 : env.is_file (s.playlist[idx.toNat]?.getD "") = true := by
    simpa [List.getD] using hf
  simp [play_index, play_internal, hne, hrange, hf, hf2]

theorem getD_indexOf_self {l : List String} {a : String} (h : a ∈ l) :
    l.getD (l.indexOf a) "" = a := by
  simp [List.getD, List.getElem?_indexOf h]

theorem getD_ne_of_lt_indexOf :
    ∀ (l : List String) (a : String) (j : Nat),
      j < l.indexOf a → l.getD j "" ≠ a
  | [], a, j, h => by simp [List.indexOf] at h
  | b :: t, a, j, h => by
    by_cases hba : b = a
    · subst hba
      rw [List.indexOf_cons_self] at h
      omega
    · rw [List.indexOf_cons_ne _ hba] at h
      cases j with
      | zero => simpa [List.getD] using hba
      | succ j =>
        have := getD_ne_of_lt_indexOf t a j (by omega)
        simpa [List.getD] using this

/-! ### Claim theorems -/

/-- C2: the elapsed value computed on a poll tick is the frozen offset
when not playing; the offset when playing with an unset start time; the
offset plus the telemetry (milliseconds over 1000) when playing with a
set start time and non-negative telemetry; and the offset plus the
wall-clock elapsed since the start time when the telemetry is negative
or the device call raises. -/
theorem C2_tick_elapsed (s : PlayerState) (getPos : Option Int) (now : ℚ) :
    (s.playing = false → tickCur s getPos now = s.track_offset_seconds) ∧
    (s.playing = true → s.track_start_time = none →
      tickCur s getPos now = s.track_offset_seconds) ∧
    (∀ t : ℚ, ∀ ms : Int, s.playing = true → s.track_start_time = some t →
      getPos = some ms → 0 ≤ ms →
      tickCur s getPos now = s.track_offset_seconds + (ms : ℚ) / 1000) ∧
    (∀ t : ℚ, s.playing = true → s.track_start_time = some t →
      (getPos = none ∨ ∃ ms : Int, getPos = some ms ∧ ms < 0) →
      tickCur s getPos now = s.track_offset_seconds + (now - t)) := by
  refine ⟨?_, ?_, ?_, ?_⟩
  · intro hp; simp [tickCur, hp]
  · intro hp hs; simp [tickCur, hp, hs]
  · intro t ms hp hs hg hms; simp [tickCur, hp, hs, hg, hms]
  · intro t hp hs hg
    rcases hg with hg | ⟨ms, hg, hms⟩
    · simp [tickCur, hp, hs, hg]
    · simp [tickCur, hp, hs, hg, not_le.mpr hms]

/-- C2 witness: a concrete playing state with telemetry 2000 ms. -/
theorem C2_tick_elapsed_witness :
    tickCur { playlist := ["a"], current_index := 0, playing := true,
              volume := 1, track_start_time := some 5,
              track_offset_seconds := 3 } (some 2000) 9 = 3 + 2 := by
  have h := (C2_tick_elapsed
    { playlist := ["a"], current_index := 0, playing := true,
      volume := 1, track_start_time := some 5,
      track_offset_seconds := 3 } (some 2000) 9).2.2.1 5 2000 rfl rfl rfl
    (by decide)
  rw [h]; norm_num

/-- C8: `load_playlist` installs exactly the existing files in their
original order (an order-preserving filter that keeps duplicates), sets
`current_index` to 0 when the result is non-empty and -1 otherwise, and
leaves the playing flag, offset, start time and volume untouched. -/
theorem C8_load_playlist (env : Env) (s : PlayerState) (paths : List String) :
    (load_playlist env s paths).1.playlist = paths.filter env.is_file ∧
    (load_playlist env s paths).1.playlist.Sublist paths ∧
    (∀ p : String, p ∈ (load_playlist env s paths).1.playlist ↔
      p ∈ paths ∧ env.is_file p = true) ∧
    (load_playlist env s paths).1.current_index =
      (if (load_playlist env s paths).1.playlist = [] then -1 else 0) ∧
    (load_playlist env s paths).1.playing = s.playing ∧
    (load_playlist env s paths).1.track_offset_seconds =
      s.track_offset_seconds ∧
    (load_playlist env s paths).1.track_start_time = s.track_start_time ∧
    (load_playlist env s paths).1.volume = s.volume ∧
    (load_playlist env s paths).2 = [] := by
  refine ⟨rfl, List.filter_sublist _, ?_, rfl, rfl, rfl, rfl, rfl, rfl⟩
  intro p
  simp [load_playlist, List.mem_filter]

/-- C4: with a selected in-range track whose file exists and a working
device, `seek(seconds)` stores the clamped offset — into `[0, duration]`
when the duration is positive (so a negative request clamps to 0 and an
over-long request clamps to the duration), only the lower clamp when the
duration is unknown or 0 — sets the start time to now, sets playing, and
the next tick (zero telemetry) reports the clamped value, not the raw
input. -/
theorem C4_seek_clamps (env : Env) (s : PlayerState) (seconds now : ℚ)
    (h0 : 0 ≤ s.current_index)
    (h1 : s.current_index < (s.playlist.length : Int))
    (hf : env.is_file (s.playlist.getD s.current_index.toNat "") = true) :
    (seek env s seconds true now).1.track_offset_seconds =
      max 0 (min seconds
        (if 0 < env.duration (s.playlist.getD s.current_index.toNat "")
         then env.duration (s.playlist.getD s.current_index.toNat "")
         else seconds)) ∧
    (seek env s seconds true now).1.track_start_time = some now ∧
    (seek env s seconds true now).1.playing = true ∧
    (0 < env.duration (s.playlist.getD s.current_index.toNat "") →
      0 ≤ (seek env s seconds true now).1.track_offset_seconds ∧
      (seek env s seconds true now).1.track_offset_seconds ≤
        env.duration (s.playlist.getD s.current_index.toNat "")) ∧
    (0 < env.duration (s.playlist.getD s.current_index.toNat "") →
      seconds < 0 →
      (seek env s seconds true now).1.track_offset_seconds = 0) ∧
    (0 < env.duration (s.playlist.getD s.current_index.toNat "") →
      env.duration (s.playlist.getD s.current_index.toNat "") < seconds →
      (seek env s seconds true now).1.track_offset_seconds =
        env.duration (s.playlist.getD s.current_index.toNat "")) ∧
    (¬0 < env.duration (s.playlist.getD s.current_index.toNat "") →
      (seek env s seconds true now).1.track_offset_seconds =
        max 0 seconds) ∧
    tickCur (seek env s seconds true now).1 (some 0) now =
      (seek env s seconds true now).1.track_offset_seconds := by
  have hguard : ¬(s.current_index = -1 ∨
      ¬(0 ≤ s.current_index ∧
        s.current_index < (s.playlist.length : Int))) := by omega
  have hs : seek env s seconds true now =
      ({ s with track_offset_seconds :=
                  max 0 (min seconds
                    (if 0 < env.duration (s.playlist.getD s.current_index.toNat "")
                     then env.duration (s.playlist.getD s.current_index.toNat "")
                     else seconds)),
                track_start_time := some now,
                playing := true },
       [Event.track_changed (s.playlist.getD s.current_index.toNat ""),
        Event.state_changed]) := by
    unfold seek
    rw [if_neg hguard, if_pos hf]
    rfl
  rw [hs]
  refine ⟨rfl, rfl, rfl, ?_, ?_, ?_, ?_, ?_⟩
  · intro hD
    constructor
    · exact le_max_left 0 _
    · rw [if_pos hD]
      exact max_le (le_of_lt hD) (min_le_right _ _)
  · intro hD hneg
    rw [if_pos hD, min_eq_left (by linarith), max_eq_left (by linarith)]
  · intro hD hover
    rw [if_pos hD, min_eq_right (by linarith), max_eq_right (by linarith)]
  · intro hD
    rw [if_neg hD, min_self]
  · simp [tickCur]

/-- C4 witness: `seek(-5)` on a 200-second track clamps the stored
offset to 0. -/
theorem C4_seek_clamps_witness :
    (0 : Int) ≤ 0 ∧
    (seek exEnv200
      { playlist := ["a"], current_index := 0, playing := false,
        volume := 1, track_start_time := none, track_offset_seconds := 0 }
      (-5) true 1).1.track_offset_seconds = 0 := by
  refine ⟨le_refl 0, ?_⟩
  have h := C4_seek_clamps exEnv200
    { playlist := ["a"], current_index := 0, playing := false,
      volume := 1, track_start_time := none, track_offset_seconds := 0 }
    (-5) 1 (by decide) (by decide) (by decide)
  exact h.2.2.2.2.1 (by norm_num [exEnv200]) (by norm_num)

/-- C5: on a non-empty playlist of length n, `next` sets the index to
`(index + 1) mod n` and `prev` to `(index - 1 + n) mod n` (both land on
0 from index -1), the new index is always in range, and when the target
file exists and the device works the fresh play starts at offset 0 with
playing set. -/
theorem C5_next_prev_wrap (env : Env) (s : PlayerState) (ok : Bool)
    (now : ℚ) (hne : s.playlist ≠ []) :
    ((next env s ok now).1.current_index =
      if s.current_index = -1 then 0
      else (s.current_index + 1) % (s.playlist.length : Int)) ∧
    ((prev env s ok now).1.current_index =
      if s.current_index = -1 then 0
      else (s.current_index - 1 + s.playlist.length) %
        (s.playlist.length : Int)) ∧
    (0 ≤ (next env s ok now).1.current_index ∧
      (next env s ok now).1.current_index < (s.playlist.length : Int)) ∧
    (0 ≤ (prev env s ok now).1.current_index ∧
      (prev env s ok now).1.current_index < (s.playlist.length : Int)) ∧
    (ok = true →
      env.is_file
        (s.playlist.getD (next env s ok now).1.current_index.toNat "") =
          true →
      ((next env s ok now).1.track_offset_seconds = 0 ∧
       (next env s ok now).1.playing = true ∧
       (next env s ok now).1.track_start_time = some now)) ∧
    (ok = true →
      env.is_file
        (s.playlist.getD (prev env s ok now).1.current_index.toNat "") =
          true →
      ((prev env s ok now).1.track_offset_seconds = 0 ∧
       (prev env s ok now).1.playing = true ∧
       (prev env s ok now).1.track_start_time = some now)) := by
  have hlen : 0 < (s.playlist.length : Int) := by
    exact_mod_cast List.length_pos.mpr hne
  set nI : Int := (if s.current_index = -1 then 0
    else (s.current_index + 1) % (s.playlist.length : Int)) with hnI
  set pI : Int := (if s.current_index = -1 then 0
    else (s.current_index - 1 + s.playlist.length) %
      (s.playlist.length : Int)) with hpI
  have hnext : next env s ok now =
      play_index env { s with current_index := nI } nI ok now := by
    rw [hnI]; simp [next, hne]
  have hprev : prev env s ok now =
      play_index env { s with current_index := pI } pI ok now := by
    rw [hpI]; simp [prev, hne]
  have hbn : 0 ≤ nI ∧ nI < (s.playlist.length : Int) := by
    rw [hnI]; split_ifs
    · exact ⟨le_refl 0, hlen⟩
    · exact ⟨Int.emod_nonneg _ (by omega), Int.emod_lt_of_pos _ hlen⟩
  have hbp : 0 ≤ pI ∧ pI < (s.playlist.length : Int) := by
    rw [hpI]; split_ifs
    · exact ⟨le_refl 0, hlen⟩
    · exact ⟨Int.emod_nonneg _ (by omega), Int.emod_lt_of_pos _ hlen⟩
  have hin : (next env s ok now).1.current_index = nI := by
    rw [hnext]
    exact (play_index_keeps_index env { s with current_index := nI }
      nI ok now rfl).1
  have hip : (prev env s ok now).1.current_index = pI := by
    rw [hprev]
    exact (play_index_keeps_index env { s with current_index := pI }
      pI ok now rfl).1
  refine ⟨hin, hip, ?_, ?_, ?_, ?_⟩
  · rw [hin]; exact hbn
  · rw [hip]; exact hbp
  · intro hok hf
    subst hok
    rw [hin] at hf
    rw [hnext, play_index_success env { s with current_index := nI }
      nI now hne hbn.1 hbn.2 hf]
    exact ⟨rfl, rfl, rfl⟩
  · intro hok hf
    subst hok
    rw [hip] at hf
    rw [hprev, play_index_success env { s with current_index := pI }
      pI now hne hbp.1 hbp.2 hf]
    exact ⟨rfl, rfl, rfl⟩

/-- C5 witness: on a 3-item playlist, `next` at index 2 wraps to 0 and
`prev` at index 0 wraps to 2. -/
theorem C5_next_prev_wrap_witness :
    (["a", "b", "c"] : List String) ≠ [] ∧
    (next exEnv
      { playlist := ["a", "b", "c"], current_index := 2, playing := false,
        volume := 1, track_start_time := none,
        track_offset_seconds := 0 } true 0).1.current_index = 0 ∧
    (prev exEnv
      { playlist := ["a", "b", "c"], current_index := 0, playing := false,
        volume := 1, track_start_time := none,
        track_offset_seconds := 0 } true 0).1.current_index = 2 := by
  refine ⟨by decide, ?_, ?_⟩
  · have h := (C5_next_prev_wrap exEnv
      { playlist := ["a", "b", "c"], current_index := 2, playing := false,
        volume := 1, track_start_time := none,
        track_offset_seconds := 0 } true 0 (by decide)).1
    rw [h]; decide
  · have h := (C5_next_prev_wrap exEnv
      { playlist := ["a", "b", "c"], current_index := 0, playing := false,
        volume := 1, track_start_time := none,
        track_offset_seconds := 0 } true 0 (by decide)).2.1
    rw [h]; decide

/-- C9: `play_path(p)` on an existing file delegates to `play_index` at
the first index of `p` when `p` is in the playlist; otherwise it plays
ad-hoc at offset 0 with `current_index` set to -1; on a missing file it
changes nothing. -/
theorem C9_play_path_delegates (env : Env) (s : PlayerState) (p : String)
    (ok : Bool) (now : ℚ) :
    (env.is_file p = false → play_path env s p ok now = (s, [])) ∧
    (env.is_file p = true → p ∈ s.playlist →
      (play_path env s p ok now =
        play_index env s (s.playlist.indexOf p : Int) ok now ∧
       s.playlist.getD (s.playlist.indexOf p) "" = p ∧
       (∀ j : Nat, j < s.playlist.indexOf p → s.playlist.getD j "" ≠ p))) ∧
    (env.is_file p = true → p ∉ s.playlist →
      ((play_path env s p true now).1.current_index = -1 ∧
       (play_path env s p true now).1.track_offset_seconds = 0 ∧
       (play_path env s p true now).1.playing = true ∧
       (play_path env s p true now).1.track_start_time = some now ∧
       (play_path env s p true now).2 =
         [Event.track_changed p, Event.state_changed])) := by
  refine ⟨?_, ?_, ?_⟩
  · intro hnf; simp [play_path, hnf]
  · intro hfl hmem
    refine ⟨by simp [play_path, hfl, hmem], getD_indexOf_self hmem, ?_⟩
    intro j hj
    exact getD_ne_of_lt_indexOf s.playlist p j hj
  · intro hfl hmem
    simp [play_path, play_internal, hfl, hmem]

/-- C9 witness: an existing file outside the playlist plays ad-hoc with
`current_index = -1`. -/
theorem C9_play_path_delegates_witness :
    exEnv.is_file "x" = true ∧ "x" ∉ (["a"] : List String) ∧
    (play_path exEnv
      { playlist := ["a"], current_index := 0, playing := false,
        volume := 1, track_start_time := none, track_offset_seconds := 0 }
      "x" true 2).1.current_index = -1 := by
  refine ⟨rfl, by decide, ?_⟩
  exact ((C9_play_path_delegates exEnv
    { playlist := ["a"], current_index := 0, playing := false,
      volume := 1, track_start_time := none, track_offset_seconds := 0 }
    "x" true 2).2.2 rfl (by decide)).1

/-- C3: on a tick with `playing` true and the device no longer busy, the
auto-advance (pause, `state_changed`, then `next()`) fires exactly when
`total > 1` and `elapsed ≥ total - 0.7`, and always when `total ≤ 1`;
when `total > 1` and `elapsed < total - 0.7` the tick changes no state
and emits only `position_updated`. -/
theorem C3_end_of_track (env : Env) (s : PlayerState) (o : TickOracle)
    (hp : s.playing = true) (hb : o.busy = false) :
    (1 < tickTotal env s →
      tickTotal env s - 7/10 ≤ tickCur s o.getPos o.now →
      tick env s o =
        ((next env { s with playing := false } o.ok o.now).1,
         Event.position_updated (tickCur s o.getPos o.now)
             (tickTotal env s) ::
           Event.state_changed ::
             (next env { s with playing := false } o.ok o.now).2)) ∧
    (1 < tickTotal env s →
      tickCur s o.getPos o.now < tickTotal env s - 7/10 →
      tick env s o =
        (s, [Event.position_updated (tickCur s o.getPos o.now)
               (tickTotal env s)])) ∧
    (tickTotal env s ≤ 1 →
      tick env s o =
        ((next env { s with playing := false } o.ok o.now).1,
         Event.position_updated (tickCur s o.getPos o.now)
             (tickTotal env s) ::
           Event.state_changed ::
             (next env { s with playing := false } o.ok o.now).2)) := by
  refine ⟨?_, ?_, ?_⟩
  · intro h1 h2
    unfold tick
    rw [if_pos ⟨hp, hb⟩, if_pos ⟨h1, h2⟩]
    rfl
  · intro h1 h2
    unfold tick
    rw [if_pos ⟨hp, hb⟩,
      if_neg (fun hc => absurd hc.2 (not_le.mpr h2)),
      if_neg (not_le.mpr h1)]
  · intro h1
    unfold tick
    rw [if_pos ⟨hp, hb⟩,
      if_neg (fun hc => absurd hc.1 (not_lt.mpr h1)), if_pos h1]
    rfl

/-- C3 witness: a playing track of duration 100 at elapsed 99.9 with the
device reporting silence auto-advances (the fresh play leaves the
engine playing). -/
theorem C3_end_of_track_witness :
    ({ playlist := ["a"], current_index := 0, playing := true,
       volume := 1, track_start_time := some 0,
       track_offset_seconds := 999/10 } : PlayerState).playing = true ∧
    (tick exEnv
      { playlist := ["a"], current_index := 0, playing := true,
        volume := 1, track_start_time := some 0,
        track_offset_seconds := 999/10 }
      { getPos := some 0, busy := false, ok := true, now := 0 }).1.playing =
      true := by
  refine ⟨rfl, ?_⟩
  have h := (C3_end_of_track exEnv
    { playlist := ["a"], current_index := 0, playing := true,
      volume := 1, track_start_time := some 0,
      track_offset_seconds := 999/10 }
    { getPos := some 0, busy := false, ok := true, now := 0 }
    rfl rfl).1 (by simp [tickTotal, exEnv])
    (by simp [tickTotal, tickCur, exEnv]; norm_num)
  rw [h]
  decide

/-- C1: after `play_index(i)` on a valid index with an existing file,
the elapsed value reported by the poll tick is non-decreasing over ticks
while playing (within either telemetry source, device telemetry
non-decreasing respectively wall clock non-decreasing), is frozen at the
accumulated offset while paused after `toggle()`, and after the resume
`toggle()` every reported value is at least the value reported at the
pause — it never resets to 0 (the paused value itself is ≥ 0). -/
theorem C1_elapsed_monotone (env : Env) (s0 s1 s2 s3 : PlayerState)
    (i : Int) (now0 nowP nowR : ℚ) (msP : Int) (g : Option Int) (u : Bool)
    (hne : s0.playlist ≠ [])
    (h0 : 0 ≤ i) (h1 : i < (s0.playlist.length : Int))
    (hf : env.is_file (s0.playlist.getD i.toNat "") = true)
    (hmsP : 0 ≤ msP)
    (hs1 : s1 = (play_index env s0 i true now0).1)
    (hs2 : s2 = (toggle env s1 (some msP) u true nowP).1)
    (hs3 : s3 = (toggle env s2 g true true nowR).1) :
    (s1.playing = true ∧ s1.track_offset_seconds = 0 ∧
      s1.track_start_time = some now0) ∧
    (∀ ms1 ms2 : Int, ∀ n1 n2 : ℚ, 0 ≤ ms1 → ms1 ≤ ms2 →
      tickCur s1 (some ms1) n1 ≤ tickCur s1 (some ms2) n2) ∧
    (∀ n1 n2 : ℚ, n1 ≤ n2 → tickCur s1 none n1 ≤ tickCur s1 none n2) ∧
    (s2.playing = false ∧
      ∀ gp : Option Int, ∀ n : ℚ,
        tickCur s2 gp n = s2.track_offset_seconds) ∧
    (∀ ms : Int, ∀ n : ℚ, 0 ≤ ms → ms ≤ msP →
      tickCur s1 (some ms) n ≤ s2.track_offset_seconds) ∧
    (s3.playing = true ∧
      s3.track_offset_seconds = s2.track_offset_seconds) ∧
    (∀ ms : Int, ∀ n : ℚ, 0 ≤ ms →
      s2.track_offset_seconds ≤ tickCur s3 (some ms) n) ∧
    (∀ n : ℚ, nowR ≤ n → s2.track_offset_seconds ≤ tickCur s3 none n) ∧
    0 ≤ s2.track_offset_seconds := by
  have e1 : s1 = { s0 with current_index := i,
                           track_offset_seconds := 0,
                           track_start_time := some now0,
                           playing := true } := by
    rw [hs1, play_index_success env s0 i now0 hne h0 h1 hf]
  have e2 : s2 = { s0 with current_index := i,
                           track_offset_seconds := 0 + (msP : ℚ) / 1000,
                           track_start_time := some now0,
                           playing := false } := by
    rw [hs2, e1]
    simp [toggle, hmsP]
  have e3 : s3 = { s0 with current_index := i,
                           track_offset_seconds := 0 + (msP : ℚ) / 1000,
                           track_start_time := some nowR,
                           playing := true } := by
    rw [hs3, e2]
    simp [toggle]
  have hdiv : ∀ a b : Int, a ≤ b → (a : ℚ) / 1000 ≤ (b : ℚ) / 1000 := by
    intro a b hab
    have : (a : ℚ) ≤ (b : ℚ) := by exact_mod_cast hab
    linarith
  have hdnn : ∀ a : Int, 0 ≤ a → 0 ≤ (a : ℚ) / 1000 := by
    intro a ha
    have : (0 : ℚ) ≤ (a : ℚ) := by exact_mod_cast ha
    linarith
  refine ⟨by rw [e1]; exact ⟨rfl, rfl, rfl⟩, ?_, ?_, ?_, ?_, ?_, ?_, ?_, ?_⟩
  · intro ms1 ms2 n1 n2 hm1 hm12
    rw [e1]
    simp only [tickCur, hm1, if_pos, le_trans hm1 hm12]
    simp [hm1, le_trans hm1 hm12, hdiv _ _ hm12]
  · intro n1 n2 hn
    rw [e1]
    simp [tickCur]
    linarith
  · refine ⟨by rw [e2], ?_⟩
    intro gp n
    rw [e2]
    simp [tickCur]
  · intro ms n hm hmP
    rw [e1, e2]
    simp [tickCur, hm]
    exact hdiv _ _ hmP
  · exact ⟨by rw [e3], by rw [e3, e2]⟩
  · intro ms n hm
    rw [e2, e3]
    simp [tickCur, hm]
    exact hdnn _ hm
  · intro n hn
    rw [e2, e3]
    simp [tickCur]
    linarith
  · rw [e2]
    simp
    exact hdnn _ hmsP

/-- C1 witness: the concrete scenario — play, pause at telemetry
10000 ms (offset 10), resume; the paused value is 10 and the first
resumed report is again at least 10. -/
theorem C1_elapsed_monotone_witness :
    (["a"] : List String) ≠ [] ∧
    (toggle exEnv
      (play_index exEnv
        { playlist := ["a"], current_index := -1, playing := false,
          volume := 1, track_start_time := none,
          track_offset_seconds := 0 } 0 true 100).1
      (some 10000) false true 110).1.track_offset_seconds ≤
    tickCur
      (toggle exEnv
        (toggle exEnv
          (play_index exEnv
            { playlist := ["a"], current_index := -1, playing := false,
              volume := 1, track_start_time := none,
              track_offset_seconds := 0 } 0 true 100).1
          (some 10000) false true 110).1
        none true true 120).1
      (some 500) 121 := by
  have h := C1_elapsed_monotone exEnv
    { playlist := ["a"], current_index := -1, playing := false,
      volume := 1, track_start_time := none, track_offset_seconds := 0 }
    _ _ _ 0 100 110 120 10000 none false (by decide) (by decide)
    (by decide) (by decide) (by decide) rfl rfl rfl
  exact ⟨by decide, h.2.2.2.2.2.2.1 500 121 (by decide)⟩

/-- C6 counterexample: with a failing device, `play_index(1)` from
index 0 still moves `current_index` to 1 (the assignment precedes the
device call), so the operation does not leave the engine state exactly
as it was. -/
theorem C6_counterexample :
    (play_index exEnv
      { playlist := ["a", "b"], current_index := 0, playing := false,
        volume := 1, track_start_time := none, track_offset_seconds := 0 }
      1 false 0).1.current_index ≠
    ({ playlist := ["a", "b"], current_index := 0, playing := false,
       volume := 1, track_start_time := none,
       track_offset_seconds := 0 } : PlayerState).current_index := by
  decide

/-- C6 amended: a device failure is never propagated; for `play_index`,
`play_path` and `seek` it leaves the playing flag, offset, start time,
playlist and volume unchanged and emits nothing (`seek` is a complete
no-op), but `play_index`/`play_path` may already have updated
`current_index` before the failing device call; the pause path of `toggle`
flips `playing` to false regardless of any device result. -/
theorem C6_device_failure (env : Env) (s : PlayerState) (i : Int)
    (p : String) (sec now : ℚ) (gp : Option Int) (u : Bool) :
    ((play_index env s i false now).1.playing = s.playing ∧
     (play_index env s i false now).1.track_offset_seconds =
       s.track_offset_seconds ∧
     (play_index env s i false now).1.track_start_time =
       s.track_start_time ∧
     (play_index env s i false now).1.playlist = s.playlist ∧
     (play_index env s i false now).1.volume = s.volume ∧
     (play_index env s i false now).2 = [] ∧
     ((play_index env s i false now).1.current_index = s.current_index ∨
      (play_index env s i false now).1.current_index = i)) ∧
    ((play_path env s p false now).1.playing = s.playing ∧
     (play_path env s p false now).1.track_offset_seconds =
       s.track_offset_seconds ∧
     (play_path env s p false now).1.track_start_time =
       s.track_start_time ∧
     (play_path env s p false now).1.playlist = s.playlist ∧
     (play_path env s p false now).1.volume = s.volume ∧
     (play_path env s p false now).2 = []) ∧
    (seek env s sec false now = (s, [])) ∧
    (s.playing = true → (toggle env s gp u false now).1.playing = false) := by
  refine ⟨?_, ?_, ?_, ?_⟩
  · simp only [play_index, play_internal]
    split_ifs <;> simp_all
  · simp only [play_path, play_index, play_internal]
    split_ifs <;> simp_all
  · simp only [seek]
    split_ifs <;> simp_all
  · intro hp
    simp [toggle, hp]

/-- C6 amended witness: the failing `play_index(1)` leaves the playing
flag untouched. -/
theorem C6_device_failure_witness :
    ({ playlist := ["a", "b"], current_index := 0, playing := true,
       volume := 1, track_start_time := some 0,
       track_offset_seconds := 3 } : PlayerState).playing = true ∧
    (toggle exEnv
      { playlist := ["a", "b"], current_index := 0, playing := true,
        volume := 1, track_start_time := some 0,
        track_offset_seconds := 3 } (some 1000) false false 9).1.playing =
      false := by
  refine ⟨rfl, ?_⟩
  exact (C6_device_failure exEnv
    { playlist := ["a", "b"], current_index := 0, playing := true,
      volume := 1, track_start_time := some 0, track_offset_seconds := 3 }
    1 "a" 0 9 (some 1000) false).2.2.2 rfl

/-- C7 counterexample: after `load_playlist([])` (from the initial
state), `toggle()` with a device whose `unpause` succeeds flips
`playing` to true — not every transport operation is a no-op on the
empty playlist. -/
theorem C7_counterexample :
    (toggle exEnv (load_playlist exEnv initState []).1
        none true true 5).1 ≠
      (load_playlist exEnv initState []).1 := by
  decide

/-- C7 amended: `load_playlist([])` yields `current_index = -1` and an
empty playlist; while the playlist is empty, `play_index`, `next`,
`prev` and `seek` are complete no-ops, and `stop` leaves the state
unchanged when the engine is already stopped and reset; `toggle`,
however, may still flip the `playing` flag through the device
pause/unpause. -/
theorem C7_empty_playlist (env : Env) (s : PlayerState) (i : Int)
    (sec now : ℚ) (ok : Bool) (hpl : s.playlist = []) :
    (load_playlist env s []).1.current_index = -1 ∧
    (load_playlist env s []).1.playlist = [] ∧
    play_index env s i ok now = (s, []) ∧
    next env s ok now = (s, []) ∧
    prev env s ok now = (s, []) ∧
    seek env s sec ok now = (s, []) ∧
    (s.playing = false → s.track_start_time = none →
      s.track_offset_seconds = 0 → (stop s).1 = s) := by
  refine ⟨rfl, rfl, ?_, ?_, ?_, ?_, ?_⟩
  · simp [play_index, hpl]
  · simp [next, hpl]
  · simp [prev, hpl]
  · have hguard : s.current_index = -1 ∨
        ¬(0 ≤ s.current_index ∧
          s.current_index < (s.playlist.length : Int)) := by
      rw [hpl]
      right
      simp
    simp only [seek]
    rw [if_pos hguard]
  · intro hp hst hof
    obtain ⟨pl, ci, pg, vol, st, off⟩ := s
    simp_all [stop]

/-- C7 amended witness: from the empty-playlist initial state,
`play_index 0` is a no-op. -/
theorem C7_empty_playlist_witness :
    initState.playlist = ([] : List String) ∧
    play_index exEnv initState 0 true 1 = (initState, []) := by
  exact ⟨rfl, (C7_empty_playlist exEnv initState 0 0 1 true rfl).2.2.1⟩

theorem indexInv_play_internal (s : PlayerState) (path : String)
    (st : ℚ) (ok : Bool) (now : ℚ) (h : indexInv s) :
    indexInv (play_internal s path st ok now).1 := by
  cases ok <;> simpa [play_internal, indexInv] using h

theorem indexInv_play_index (env : Env) (s : PlayerState) (i : Int)
    (ok : Bool) (now : ℚ) (h : indexInv s) :
    indexInv (play_index env s i ok now).1 := by
  cases ok <;> simp [play_index, play_internal] <;> split_ifs <;>
    simp_all [indexInv]

theorem indexInv_play_path (env : Env) (s : PlayerState) (p : String)
    (ok : Bool) (now : ℚ) (h : indexInv s) :
    indexInv (play_path env s p ok now).1 := by
  cases hfl : env.is_file p
  · simpa [play_path, hfl, indexInv] using h
  · by_cases hmem : p ∈ s.playlist
    · simpa [play_path, hfl, hmem] using
        indexInv_play_index env s (s.playlist.indexOf p : Int) ok now h
    · simpa [play_path, hfl, hmem] using
        indexInv_play_internal { s with current_index := -1 } p 0 ok now
          (Or.inl rfl)

theorem indexInv_toggle (env : Env) (s : PlayerState) (gp : Option Int)
    (u ok : Bool) (now : ℚ) (h : indexInv s) :
    indexInv (toggle env s gp u ok now).1 := by
  cases hsp : s.playing
  · cases u
    · by_cases hpl : s.playlist = []
      · simpa [toggle, hsp, hpl, indexInv] using h
      · by_cases hci : s.current_index = -1
        · simpa [toggle, hsp, hpl, hci] using
            indexInv_play_index env s 0 ok now h
        · rcases hpi : pyIndex s.playlist s.current_index with _ | path
          · simpa [toggle, hsp, hpl, hci, hpi, indexInv] using h
          · simpa [toggle, hsp, hpl, hci, hpi] using
              indexInv_play_internal s path s.track_offset_seconds ok now h
    · simpa [toggle, hsp, indexInv] using h
  · simpa [toggle, hsp, indexInv] using h

theorem indexInv_next (env : Env) (s : PlayerState) (ok : Bool)
    (now : ℚ) (h : indexInv s) : indexInv (next env s ok now).1 := by
  by_cases hpl : s.playlist = []
  · simpa [next, hpl, indexInv] using h
  · have hlen : 0 < (s.playlist.length : Int) := by
      exact_mod_cast List.length_pos.mpr hpl
    set i : Int := (if s.current_index = -1 then 0
      else (s.current_index + 1) % (s.playlist.length : Int)) with hi
    have hb : 0 ≤ i ∧ i < (s.playlist.length : Int) := by
      rw [hi]; split_ifs
      · exact ⟨le_refl 0, hlen⟩
      · exact ⟨Int.emod_nonneg _ (by omega), Int.emod_lt_of_pos _ hlen⟩
    have hkeep := play_index_keeps_index env
      { s with current_index := i } i ok now rfl
    have hnext : next env s ok now =
        play_index env { s with current_index := i } i ok now := by
      rw [hi]; simp [next, hpl]
    rw [hnext]
    unfold indexInv
    rw [hkeep.1, hkeep.2]
    exact Or.inr hb

theorem indexInv_prev (env : Env) (s : PlayerState) (ok : Bool)
    (now : ℚ) (h : indexInv s) : indexInv (prev env s ok now).1 := by
  by_cases hpl : s.playlist = []
  · simpa [prev, hpl, indexInv] using h
  · have hlen : 0 < (s.playlist.length : Int) := by
      exact_mod_cast List.length_pos.mpr hpl
    set i : Int := (if s.current_index = -1 then 0
      else (s.current_index - 1 + s.playlist.length) %
        (s.playlist.length : Int)) with hi
    have hb : 0 ≤ i ∧ i < (s.playlist.length : Int) := by
      rw [hi]; split_ifs
      · exact ⟨le_refl 0, hlen⟩
      · exact ⟨Int.emod_nonneg _ (by omega), Int.emod_lt_of_pos _ hlen⟩
    have hkeep := play_index_keeps_index env
      { s with current_index := i } i ok now rfl
    have hprev : prev env s ok now =
        play_index env { s with current_index := i } i ok now := by
      rw [hi]; simp [prev, hpl]
    rw [hprev]
    unfold indexInv
    rw [hkeep.1, hkeep.2]
    exact Or.inr hb

theorem indexInv_seek (env : Env) (s : PlayerState) (sec : ℚ)
    (ok : Bool) (now : ℚ) (h : indexInv s) :
    indexInv (seek env s sec ok now).1 := by
  simp only [seek]
  split_ifs <;> simpa [indexInv] using h

theorem indexInv_load_playlist (env : Env) (s : PlayerState)
    (paths : List String) : indexInv (load_playlist env s paths).1 := by
  simp only [load_playlist, indexInv]
  split_ifs with hpl
  · exact Or.inl rfl
  · refine Or.inr ⟨le_refl 0, ?_⟩
    exact_mod_cast List.length_pos.mpr hpl

theorem indexInv_tick (env : Env) (s : PlayerState) (o : TickOracle)
    (h : indexInv s) : indexInv (tick env s o).1 := by
  unfold tick
  by_cases h1 : s.playing = true ∧ o.busy = false
  · rw [if_pos h1]
    by_cases h2 : 1 < tickTotal env s ∧
        tickTotal env s - 7/10 ≤ tickCur s o.getPos o.now
    · rw [if_pos h2]
      exact indexInv_next env { s with playing := false } o.ok o.now h
    · rw [if_neg h2]
      by_cases h3 : tickTotal env s ≤ 1
      · rw [if_pos h3]
        exact indexInv_next env { s with playing := false } o.ok o.now h
      · rw [if_neg h3]
        exact h
  · rw [if_neg h1]
    exact h

/-- C10: every engine operation preserves the invariant that
`current_index` is -1 or within the playlist bounds, and
`current_track` returns the playlist entry at `current_index` exactly
when the bound holds, `none` when the index is -1 or out of range. -/
theorem C10_index_invariant (env : Env) (s : PlayerState)
    (paths : List String) (i : Int) (p : String) (v sec now : ℚ)
    (gp : Option Int) (u ok : Bool) (o : TickOracle)
    (h : indexInv s) :
    indexInv (load_playlist env s paths).1 ∧
    indexInv (play_index env s i ok now).1 ∧
    indexInv (play_path env s p ok now).1 ∧
    indexInv (toggle env s gp u ok now).1 ∧
    indexInv (stop s).1 ∧
    indexInv (next env s ok now).1 ∧
    indexInv (prev env s ok now).1 ∧
    indexInv (seek env s sec ok now).1 ∧
    indexInv (set_volume s v).1 ∧
    indexInv (tick env s o).1 ∧
    (0 ≤ s.current_index ∧ s.current_index < (s.playlist.length : Int) →
      current_track s = some (s.playlist.getD s.current_index.toNat "")) ∧
    ((s.current_index = -1 ∨
        ¬(0 ≤ s.current_index ∧
          s.current_index < (s.playlist.length : Int))) →
      current_track s = none) := by
  refine ⟨indexInv_load_playlist env s paths,
    indexInv_play_index env s i ok now h,
    indexInv_play_path env s p ok now h,
    indexInv_toggle env s gp u ok now h,
    by simpa [stop, indexInv] using h,
    indexInv_next env s ok now h,
    indexInv_prev env s ok now h,
    indexInv_seek env s sec ok now h,
    by simpa [set_volume, indexInv] using h,
    indexInv_tick env s o h, ?_, ?_⟩
  · intro hb
    unfold current_track
    rw [if_neg (by omega), if_pos hb]
  · intro hb
    by_cases hci : s.current_index = -1
    · simp [current_track, hci]
    · rcases hb with hb | hb
      · exact absurd hb hci
      · unfold current_track
        rw [if_neg hci, if_neg hb]

/-- C10 witness: a concrete in-range state satisfies the invariant and
`current_track` returns the selected entry. -/
theorem C10_index_invariant_witness :
    indexInv { playlist := ["a", "b"], current_index := 1,
               playing := false, volume := 1, track_start_time := none,
               track_offset_seconds := 0 } ∧
    current_track { playlist := ["a", "b"], current_index := 1,
                    playing := false, volume := 1,
                    track_start_time := none,
                    track_offset_seconds := 0 } = some "b" := by
  refine ⟨by decide, ?_⟩
  have h := (C10_index_invariant exEnv
    { playlist := ["a", "b"], current_index := 1, playing := false,
      volume := 1, track_start_time := none, track_offset_seconds := 0 }
    [] 0 "a" 0 0 0 none false true
    { getPos := none, busy := true, ok := true, now := 0 }
    (by decide)).2.2.2.2.2.2.2.2.2.2.1 (by decide)
  simpa using h

end Velzaren
